import Mathlib

/-!
Verification of the explore-wiki retrieval-and-re-ranking pipeline
(`src/server/api.py`, with the ETL normalization step of
`src/server/normalize.py`).

Python strings are modelled as `List Char` (a Python `str` is a sequence of
Unicode code points).  `str.lower` is modelled by `Char.toLower`, which agrees
with Python's lowering on the ASCII range relevant to the lookup keys and the
meta-page prefixes.  Machine floats are modelled as real numbers; `int(x)`
(truncation toward zero) is modelled by `pyInt`.  The FAISS vector index and
the SQLite metadata database are external collaborators: the index is an
opaque structure supplying `reconstruct` and `search`, the database is a list
of rows.
-/

/-- Model of Python `s.lower()` (ASCII range): lower-case every character. -/
def pyLower (s : List Char) : List Char := s.map Char.toLower

/-- Model of Python `s.replace(' ', '_')`: the pattern is a single character,
so the call replaces each space character by an underscore. -/
def pyReplaceSpace (s : List Char) : List Char :=
  s.map (fun c => if c = ' ' then '_' else c)

/-- `api.py` line 75: `lookup_key = title.replace(' ', '_').lower()` —
the read-time normalization applied to the requested title. -/
def lookup_key (title : List Char) : List Char := pyLower (pyReplaceSpace title)

/-- `normalize.py` line 40: `lookup_title = title.lower()` — the write-time
key the ETL stores in the `lookup_title` column (note: no space replacement). -/
def etl_lookup_title (title : List Char) : List Char := pyLower title

/-- `api.py` lines 58-61: the configured list of meta prefixes. -/
def meta_prefixes : List (List Char) :=
  ["wikipedia:".toList, "template:".toList, "category:".toList, "portal:".toList,
   "help:".toList, "user:".toList, "talk:".toList, "file:".toList, "list of".toList]

/-- Model of Python's `in` on strings: `hasSubstr pat s` holds when `pat`
occurs contiguously inside `s`. -/
def hasSubstr (pat : List Char) : List Char → Bool
  | [] => pat.isEmpty
  | c :: rest => pat.isPrefixOf (c :: rest) || hasSubstr pat rest

/-- `api.py` lines 55-66: `is_meta_page`.  The title is lower-cased, then
checked for any configured prefix and for the disambiguation marker.
A pure function of the title string, with no store access. -/
def is_meta_page (title : List Char) : Bool :=
  let lower := pyLower title
  (meta_prefixes.any fun p => p.isPrefixOf lower) ||
    hasSubstr "(disambiguation)".toList lower

/-- One row of the `articles` table of `metadata.db`.  `article_id` is the
primary key (unique per row); `lookup_title` is the column written by the
ETL of `normalize.py`. -/
structure ArticleRecord where
  article_id : Int
  title : List Char
  pageviews : Option Int
  lookup_title : List Char
deriving DecidableEq

/-- `api.py` lines 78-82: `SELECT article_id FROM articles WHERE
lookup_title = ?` followed by `fetchone()` — the first matching row. -/
def findByLookupKey (store : List ArticleRecord) (key : List Char) :
    Option ArticleRecord :=
  store.find? fun r => r.lookup_title == key

/-- `api.py` lines 110-120: the batched `WHERE article_id IN (...)` fetch
turned into the dictionary `candidate_data`, then `candidate_data.get(cand_id)`.
Since `article_id` is the primary key, the dictionary lookup for an id equals
the first row of the table with that id. -/
def findById (store : List ArticleRecord) (i : Int) : Option ArticleRecord :=
  store.find? fun r => r.article_id == i

/-- The ETL of `normalize.py` lines 36-45: for every row, set
`lookup_title` to `title.lower()`. -/
def normalize_database (rows : List (Int × List Char × Option Int)) :
    List ArticleRecord :=
  rows.map fun r =>
    { article_id := r.1, title := r.2.1, pageviews := r.2.2,
      lookup_title := etl_lookup_title r.2.1 }

/-- `api.py` line 19. -/
def CANDIDATE_POOL_SIZE : Nat := 50

/-- `api.py` line 20. -/
def RESULTS_TO_RETURN : Nat := 7

/-- `api.py` lines 96-104: the search returns parallel arrays of ids and
distances, modelled as one list of pairs; the code keeps
`indices[0][1:]` / `distances[0][1:]`, i.e. it drops the FIRST returned
neighbor positionally (the comment on line 95 assumes it is the query
article itself). -/
def candidateList (neighbors : List (Int × ℝ)) : List (Int × ℝ) :=
  neighbors.tail

/-- `api.py` line 102: `candidate_ids = [int(idx) for idx in indices[0][1:]]` —
the candidate pool of article ids. -/
def candidate_ids (neighbors : List (Int × ℝ)) : List Int :=
  (candidateList neighbors).map Prod.fst

/-- `api.py` lines 17-18: the scoring weights. -/
def WEIGHT_SEMANTIC : ℝ := 0.70

/-- `api.py` line 18. -/
def WEIGHT_POPULARITY : ℝ := 0.30

/-- `api.py` lines 47-53: `normalize_popularity`.  Returns `0.0` when the
pageview count is NULL or non-positive, otherwise
`min(1.0, log10(pageviews + 1) / 7.0)`. -/
noncomputable def normalize_popularity : Option Int → ℝ
  | none => 0
  | some p => if p ≤ 0 then 0 else min 1 (Real.logb 10 ((p : ℝ) + 1) / 7)

/-- `api.py` line 132: `score_semantic = (1 - candidate_dists[i])` —
note the absence of any clamping. -/
def score_semantic (distance : ℝ) : ℝ := 1 - distance

/-- `api.py` line 135: the blended score. -/
noncomputable def final_score (distance : ℝ) (pageviews : Option Int) : ℝ :=
  score_semantic distance * WEIGHT_SEMANTIC +
    normalize_popularity pageviews * WEIGHT_POPULARITY

/-- Model of Python `int(x)` on a float: truncation toward zero. -/
noncomputable def pyInt (x : ℝ) : Int := if x < 0 then ⌈x⌉ else ⌊x⌋

/-- `api.py` line 139: `int(final_score * 100)` — the presentation score. -/
noncomputable def presentation_score (distance : ℝ) (pageviews : Option Int) :
    Int :=
  pyInt (final_score distance pageviews * 100)

/-- One entry of the response list, `api.py` lines 137-140. -/
structure RankedResult where
  title : List Char
  score : Int
deriving DecidableEq

/-- `api.py` lines 123-140: the re-ranking loop.  Each candidate pair of the
pool is joined against the store; candidates with no row and meta pages are
skipped, the rest get a presentation score. -/
noncomputable def ranked_results (store : List ArticleRecord)
    (neighbors : List (Int × ℝ)) : List RankedResult :=
  (candidateList neighbors).filterMap fun c =>
    match findById store c.1 with
    | none => none
    | some data =>
      if is_meta_page data.title then none
      else some { title := data.title,
                  score := presentation_score c.2 data.pageviews }

/-- Insertion step of a stable descending sort on the integer score:
the new element goes in front of the first element whose score is not
larger, so earlier elements win ties. -/
def insertDesc (x : RankedResult) : List RankedResult → List RankedResult
  | [] => [x]
  | y :: ys => if y.score ≤ x.score then x :: y :: ys else y :: insertDesc x ys

/-- `api.py` line 143: `ranked_results.sort(key=lambda x: x['score'],
reverse=True)`.  Python's sort is stable and `reverse=True` keeps elements
with equal keys in their original order, so the call is the stable
descending sort by the integer `score` field. -/
def pySortDesc : List RankedResult → List RankedResult
  | [] => []
  | x :: xs => insertDesc x (pySortDesc xs)

/-- `api.py` lines 143-145: sort descending by score, truncate to
`RESULTS_TO_RETURN`. -/
def rank_and_truncate (l : List RankedResult) : List RankedResult :=
  (pySortDesc l).take RESULTS_TO_RETURN

/-- The external FAISS index (`api.py` lines 24-34): `reconstruct` yields the
stored embedding of an id (or fails, line 89-92), `search` yields the `k`
nearest `(id, distance)` pairs of a vector, ascending by distance. -/
structure VectorIndex where
  reconstruct : Int → Option (List ℝ)
  search : List ℝ → Nat → List (Int × ℝ)

/-- The three possible HTTP responses of the route, `api.py` lines 85, 92
and 145. -/
inductive ApiResponse where
  | notFound (searched_for : List Char)
  | embeddingMissing
  | ok (results : List RankedResult)
deriving DecidableEq

/-- `api.py` lines 71-145: the `/api/related/<title>` handler.  Normalize the
title, resolve it against `lookup_title`, reconstruct the embedding, search
the index for `CANDIDATE_POOL_SIZE + 1` neighbors, re-rank, sort and
truncate. -/
noncomputable def get_related (idx : VectorIndex) (store : List ArticleRecord)
    (title : List Char) : ApiResponse :=
  let key := lookup_key title
  match findByLookupKey store key with
  | none => ApiResponse.notFound key
  | some row =>
    match idx.reconstruct row.article_id with
    | none => ApiResponse.embeddingMissing
    | some emb =>
      ApiResponse.ok
        (rank_and_truncate
          (ranked_results store (idx.search emb (CANDIDATE_POOL_SIZE + 1))))

/-! ### Character-level facts about the ASCII lower-casing -/

/-- Decoding `Char.ofNat` below the surrogate range. -/
theorem toNat_charOfNat {n : Nat} (h : n < 55296) : (Char.ofNat n).toNat = n := by
  have hv : n.isValidChar := Or.inl h
  rw [Char.ofNat, dif_pos hv]
  rfl

/-- Unfolding `Char.toLower` on an upper-case letter. -/
theorem toLower_eq_of (c : Char) (h : 65 ≤ c.toNat ∧ c.toNat ≤ 90) :
    Char.toLower c = Char.ofNat (c.toNat + 32) := by
  simp only [Char.toLower, ge_iff_le]
  rw [if_pos h]

/-- Unfolding `Char.toLower` outside the upper-case letters. -/
theorem toLower_eq_self (c : Char) (h : ¬(65 ≤ c.toNat ∧ c.toNat ≤ 90)) :
    Char.toLower c = c := by
  simp only [Char.toLower, ge_iff_le]
  rw [if_neg h]

/-- Code point of the lower-cased form of an upper-case letter. -/
theorem toLower_toNat_lemma (c : Char) (h : 65 ≤ c.toNat ∧ c.toNat ≤ 90) :
    (Char.toLower c).toNat = c.toNat + 32 := by
  rw [toLower_eq_of c h]
  exact toNat_charOfNat (by omega)

/-- Lower-casing a character twice is the same as lower-casing it once. -/
theorem toLower_idem (c : Char) : c.toLower.toLower = c.toLower := by
  by_cases h : 65 ≤ c.toNat ∧ c.toNat ≤ 90
  · have h1 : (Char.toLower c).toNat = c.toNat + 32 := toLower_toNat_lemma c h
    exact toLower_eq_self _ (by omega)
  · rw [toLower_eq_self c h, toLower_eq_self c h]

/-- Lower-casing never produces a space from a non-space character. -/
theorem toLower_ne_space {c : Char} (h : c ≠ ' ') : c.toLower ≠ ' ' := by
  by_cases hc : 65 ≤ c.toNat ∧ c.toNat ≤ 90
  · have h1 : (Char.toLower c).toNat = c.toNat + 32 := toLower_toNat_lemma c hc
    intro he
    rw [he] at h1
    have h2 : (' ' : Char).toNat = 32 := rfl
    omega
  · rwa [toLower_eq_self c hc]

/-- The per-character action of the read-time normalization. -/
theorem lookup_key_eq_map (t : List Char) :
    lookup_key t = t.map (fun c => Char.toLower (if c = ' ' then '_' else c)) := by
  simp [lookup_key, pyLower, pyReplaceSpace, List.map_map, Function.comp]

/-- The per-character normalization is idempotent. -/
theorem lookup_key_char_idem (c : Char) :
    Char.toLower
        (if Char.toLower (if c = ' ' then '_' else c) = ' ' then '_'
         else Char.toLower (if c = ' ' then '_' else c)) =
      Char.toLower (if c = ' ' then '_' else c) := by
  have hr : (if c = ' ' then '_' else c) ≠ ' ' := by
    by_cases h : c = ' '
    · rw [if_pos h]; decide
    · rwa [if_neg h]
  rw [if_neg (toLower_ne_space hr)]
  exact toLower_idem _

/-! ### Facts about the stable descending sort -/

/-- Inserting permutes: the result holds the new element and the old ones. -/
theorem insertDesc_perm (x : RankedResult) (l : List RankedResult) :
    List.Perm (insertDesc x l) (x :: l) := by
  induction l with
  | nil => exact List.Perm.refl _
  | cons y ys ih =>
    unfold insertDesc
    by_cases h : y.score ≤ x.score
    · rw [if_pos h]
    · rw [if_neg h]
      exact (ih.cons y).trans (List.Perm.swap x y ys)

/-- The sort permutes its input. -/
theorem pySortDesc_perm (l : List RankedResult) : List.Perm (pySortDesc l) l := by
  induction l with
  | nil => exact List.Perm.refl _
  | cons x xs ih => exact (insertDesc_perm x (pySortDesc xs)).trans (ih.cons x)

/-- Stability of one insertion: restricted to any fixed score value, inserting
either prepends the new element (it has that score) or leaves the selection
unchanged. -/
theorem filter_insertDesc (x : RankedResult) (l : List RankedResult) (s : Int) :
    (insertDesc x l).filter (fun r => r.score == s) =
      if x.score == s then x :: l.filter (fun r => r.score == s)
      else l.filter (fun r => r.score == s) := by
  induction l with
  | nil =>
    unfold insertDesc
    by_cases h : x.score == s
    · rw [if_pos h]; simp [List.filter, h]
    · rw [if_neg h]; simp [List.filter, h]
  | cons y ys ih =>
    unfold insertDesc
    by_cases h : y.score ≤ x.score
    · rw [if_pos h]
      by_cases hx : x.score == s
      · rw [if_pos hx]; simp [List.filter_cons, hx]
      · rw [if_neg hx]; simp [List.filter_cons, hx]
    · rw [if_neg h]
      by_cases hx : x.score == s
      · rw [if_pos hx]
        have hy : (y.score == s) = false := by
          have hxs : x.score = s := by simpa using hx
          have hne : ¬ (y.score = s) := by omega
          simpa using hne
        simp only [List.filter_cons, hy, ih, if_pos hx, Bool.false_eq_true,
          if_neg]
        simp [hy]
      · rw [if_neg hx]
        simp only [List.filter_cons, ih, if_neg hx]

/-- Stability of the sort: the elements carrying any fixed score value appear
in the sorted list in exactly their input order. -/
theorem filter_pySortDesc (l : List RankedResult) (s : Int) :
    (pySortDesc l).filter (fun r => r.score == s) =
      l.filter (fun r => r.score == s) := by
  induction l with
  | nil => rfl
  | cons x xs ih =>
    unfold pySortDesc
    rw [filter_insertDesc, List.filter_cons]
    by_cases hx : x.score == s
    · rw [if_pos hx, ih, if_pos hx]
    · rw [if_neg hx, ih]
      simp [hx]

/-- Inserting into a descending list keeps it descending. -/
theorem sorted_insertDesc (x : RankedResult) (l : List RankedResult)
    (h : l.Sorted (fun a b => b.score ≤ a.score)) :
    (insertDesc x l).Sorted (fun a b => b.score ≤ a.score) := by
  induction l with
  | nil => simp [insertDesc]
  | cons y ys ih =>
    unfold insertDesc
    rw [List.sorted_cons] at h
    by_cases hxy : y.score ≤ x.score
    · rw [if_pos hxy, List.sorted_cons]
      refine ⟨?_, List.sorted_cons.mpr h⟩
      intro b hb
      rcases List.mem_cons.mp hb with hb | hb
      · exact hb ▸ hxy
      · exact le_trans (h.1 b hb) hxy
    · rw [if_neg hxy, List.sorted_cons]
      refine ⟨?_, ih h.2⟩
      intro b hb
      rcases List.mem_cons.mp ((insertDesc_perm x ys).mem_iff.mp hb) with hb | hb
      · exact hb ▸ le_of_lt (lt_of_not_le hxy)
      · exact h.1 b hb

/-- The sorted list is descending in the integer score. -/
theorem sorted_pySortDesc (l : List RankedResult) :
    (pySortDesc l).Sorted (fun a b => b.score ≤ a.score) := by
  induction l with
  | nil => simp [pySortDesc]
  | cons x xs ih => exact sorted_insertDesc x (pySortDesc xs) ih

/-- Everything in the output list comes from the pre-sort candidate list. -/
theorem mem_rank_and_truncate (r : RankedResult) (l : List RankedResult)
    (h : r ∈ rank_and_truncate l) : r ∈ l :=
  (pySortDesc_perm l).mem_iff.mp (List.take_subset _ _ h)

/-- Every entry the re-ranking loop emits has a non-meta title. -/
theorem mem_ranked_results_no_meta (store : List ArticleRecord)
    (neighbors : List (Int × ℝ)) (r : RankedResult)
    (hr : r ∈ ranked_results store neighbors) : is_meta_page r.title = false := by
  unfold ranked_results at hr
  rcases List.mem_filterMap.mp hr with ⟨c, hc, heq⟩
  cases hfind : findById store c.1 with
  | none => simp only [hfind] at heq; cases heq
  | some data =>
    simp only [hfind] at heq
    by_cases hm : is_meta_page data.title = true
    · rw [if_pos hm] at heq; cases heq
    · rw [if_neg hm] at heq
      obtain rfl := Option.some.inj heq
      simpa using hm

/-! ### Facts about the popularity component -/

/-- The popularity component is never negative. -/
theorem normalize_popularity_nonneg (pv : Option Int) :
    0 ≤ normalize_popularity pv := by
  cases pv with
  | none => simp [normalize_popularity]
  | some p =>
    simp only [normalize_popularity]
    by_cases h : p ≤ 0
    · rw [if_pos h]
    · rw [if_neg h]
      apply le_min (by norm_num)
      apply div_nonneg _ (by norm_num)
      apply Real.logb_nonneg (by norm_num)
      have hp : (1 : ℝ) ≤ (p : ℝ) := by exact_mod_cast (by omega : (1:Int) ≤ p)
      linarith

/-- The popularity component never exceeds one. -/
theorem normalize_popularity_le_one (pv : Option Int) :
    normalize_popularity pv ≤ 1 := by
  cases pv with
  | none => simp [normalize_popularity]
  | some p =>
    simp only [normalize_popularity]
    by_cases h : p ≤ 0
    · rw [if_pos h]; norm_num
    · rw [if_neg h]; exact min_le_left _ _

/-- The popularity component grows with the pageview count. -/
theorem normalize_popularity_mono (p1 p2 : Int) (h : p1 ≤ p2) :
    normalize_popularity (some p1) ≤ normalize_popularity (some p2) := by
  by_cases h1 : p1 ≤ 0
  · calc normalize_popularity (some p1) = 0 := by simp [normalize_popularity, h1]
      _ ≤ normalize_popularity (some p2) := normalize_popularity_nonneg _
  · have h2 : ¬ p2 ≤ 0 := by omega
    simp only [normalize_popularity]
    rw [if_neg h1, if_neg h2]
    apply min_le_min le_rfl
    apply (div_le_div_iff_of_pos_right (by norm_num : (0:ℝ) < 7)).mpr
    apply Real.logb_le_logb_of_le (by norm_num : (1:ℝ) < 10)
      (by exact_mod_cast (by omega : (0:Int) < p1 + 1))
    exact_mod_cast (by omega : p1 + 1 ≤ p2 + 1)

/-- The clamp of the spec's words: `clamp(x, lo, hi)`. -/
def spec_clamp (x lo hi : ℝ) : ℝ := max lo (min hi x)

/-- Numeric lower bound on `log10(5000001)`, via `10 ^ 327 ≤ 5000001 ^ 50`. -/
theorem logb_5000001_lb : (327/50 : ℝ) ≤ Real.logb 10 5000001 := by
  rw [Real.le_logb_iff_rpow_le (by norm_num) (by norm_num)]
  apply le_of_pow_le_pow_left₀ (n := 50) (by norm_num)
    (by norm_num : (0:ℝ) ≤ 5000001)
  have h : ((10:ℝ) ^ ((327:ℝ)/50)) ^ (50:ℕ) = (10:ℝ) ^ (327:ℕ) := by
    rw [← Real.rpow_natCast ((10:ℝ) ^ ((327:ℝ)/50)) 50,
      ← Real.rpow_mul (by norm_num : (0:ℝ) ≤ 10)]
    have he : (327:ℝ)/50 * ((50:ℕ):ℝ) = ((327:ℕ):ℝ) := by norm_num
    rw [he, Real.rpow_natCast]
  rw [h]
  have hn : (10:ℕ) ^ 327 ≤ 5000001 ^ 50 := by decide
  exact_mod_cast hn

/-- Numeric upper bound on `log10(5000001)`, via `5000001 ^ 10 ≤ 10 ^ 67`. -/
theorem logb_5000001_ub : Real.logb 10 5000001 ≤ (67/10 : ℝ) := by
  rw [Real.logb_le_iff_le_rpow (by norm_num) (by norm_num)]
  apply le_of_pow_le_pow_left₀ (n := 10) (by norm_num)
    (Real.rpow_nonneg (by norm_num) _)
  have h : ((10:ℝ) ^ ((67:ℝ)/10)) ^ (10:ℕ) = (10:ℝ) ^ (67:ℕ) := by
    rw [← Real.rpow_natCast ((10:ℝ) ^ ((67:ℝ)/10)) 10,
      ← Real.rpow_mul (by norm_num : (0:ℝ) ≤ 10)]
    have he : (67:ℝ)/10 * ((10:ℕ):ℝ) = ((67:ℕ):ℝ) := by norm_num
    rw [he, Real.rpow_natCast]
  rw [h]
  have hn : (5000001:ℕ) ^ 10 ≤ 10 ^ 67 := by decide
  exact_mod_cast hn

/-! ### Concrete fixtures used by counterexamples and witnesses -/

/-- An index with no embeddings and empty search results. -/
def nullIndex : VectorIndex := ⟨fun _ => none, fun _ _ => []⟩

/-- A store holding exactly one article titled `"Albert Einstein"`, with its
`lookup_title` column produced by the ETL of `normalize.py`. -/
def albertStore : List ArticleRecord :=
  normalize_database [(42, "Albert Einstein".toList, some 1000)]

/-- An index whose search puts the query article (id 1) second, after a
different article (id 7). -/
noncomputable def cexIndex : VectorIndex :=
  ⟨fun _ => some [], fun _ _ => [((7:Int),(0:ℝ)), ((1:Int),(1:ℝ)/2)]⟩

/-- A two-article store for the self-candidacy counterexample. -/
def cexStore : List ArticleRecord :=
  [⟨1, "a".toList, none, "a".toList⟩, ⟨7, "b".toList, none, "b".toList⟩]

/-- An index whose search returns the query article (id 1) first, then a
second article (id 2). -/
noncomputable def wIndex : VectorIndex :=
  ⟨fun _ => some [], fun _ _ => [((1:Int),(0:ℝ)), ((2:Int),(1:ℝ)/2)]⟩

/-- A two-article store for the filter-completeness witness. -/
def wStore : List ArticleRecord :=
  [⟨1, "a".toList, none, "a".toList⟩, ⟨2, "b".toList, none, "b".toList⟩]

/-! ### Claim theorems -/

/-- C1, counterexample: the code never clamps `1 - distance`.  At distance 2
the semantic component is `-1`, not `clamp(1 - 2, 0, 1) = 0`, and the
presentation score returned to the client is `-70`, outside `[0, 100]`. -/
theorem C1_counterexample :
    score_semantic 2 ≠ spec_clamp (1 - 2) 0 1 ∧
    presentation_score 2 (some 0) = -70 ∧
    ¬ (0 ≤ presentation_score 2 (some 0)) := by
  have hpop : normalize_popularity (some 0) = 0 := by
    simp [normalize_popularity]
  have hfs : final_score 2 (some 0) = -(7/10 : ℝ) := by
    rw [final_score, hpop, score_semantic, WEIGHT_SEMANTIC, WEIGHT_POPULARITY]
    norm_num
  have hps : presentation_score 2 (some 0) = -70 := by
    rw [presentation_score, hfs, pyInt,
      if_pos (by norm_num : -(7/10 : ℝ) * 100 < 0)]
    have h70 : -(7/10 : ℝ) * 100 = ((-70 : Int) : ℝ) := by norm_num
    rw [h70, Int.ceil_intCast]
  refine ⟨?_, hps, by omega⟩
  rw [score_semantic, spec_clamp]
  norm_num

/-- C1, amended: the semantic component is the unclamped `1 - distance`; it
coincides with `clamp(1 - distance, 0, 1)` only for distances in `[0, 1]`,
and on that range the presentation score is an integer in `[0, 100]` for
every pageview value. -/
theorem C1_score_bounds_amended (d : ℝ) (pv : Option Int)
    (h0 : 0 ≤ d) (h1 : d ≤ 1) :
    score_semantic d = spec_clamp (1 - d) 0 1 ∧
    0 ≤ presentation_score d pv ∧ presentation_score d pv ≤ 100 := by
  have hpop0 := normalize_popularity_nonneg pv
  have hpop1 := normalize_popularity_le_one pv
  have hfs0 : 0 ≤ final_score d pv := by
    unfold final_score score_semantic WEIGHT_SEMANTIC WEIGHT_POPULARITY
    nlinarith
  have hfs1 : final_score d pv ≤ 1 := by
    unfold final_score score_semantic WEIGHT_SEMANTIC WEIGHT_POPULARITY
    nlinarith
  have hps : presentation_score d pv = ⌊final_score d pv * 100⌋ := by
    rw [presentation_score, pyInt, if_neg (not_lt.mpr (by nlinarith))]
  refine ⟨?_, ?_, ?_⟩
  · rw [score_semantic, spec_clamp, min_eq_right (by linarith),
      max_eq_right (by linarith)]
  · rw [hps]
    exact Int.le_floor.mpr (by push_cast; nlinarith)
  · rw [hps]
    have hle := Int.floor_le (final_score d pv * 100)
    have h100 : (↑⌊final_score d pv * 100⌋ : ℝ) ≤ 100 := by nlinarith
    exact_mod_cast h100

/-- C1, witness for the amended theorem at distance `1/2`, pageviews `0`. -/
theorem C1_score_bounds_amended_witness :
    score_semantic (1/2) = spec_clamp (1 - 1/2) 0 1 ∧
    0 ≤ presentation_score (1/2) (some 0) ∧
    presentation_score (1/2) (some 0) ≤ 100 :=
  C1_score_bounds_amended (1/2) (some 0) (by norm_num) (by norm_num)

/-- C2, counterexample: the pool drops the first returned neighbor
positionally.  When the index returns `(7, 0)` first and the query article
`(1, 1/2)` second, the pool contains the query id `1`; conversely the pool
for `[(1, 0), (7, 1/2)]` is `[7]`, showing the removal is positional.  With
the two-article fixture the query article even reaches the final result
list of its own request. -/
theorem C2_counterexample :
    (1:Int) ∈ candidate_ids [((7:Int),(0:ℝ)), ((1:Int),(1:ℝ)/2)] ∧
    candidate_ids [((1:Int),(0:ℝ)), ((7:Int),(1:ℝ)/2)] = [7] ∧
    get_related cexIndex cexStore "a".toList =
      ApiResponse.ok [⟨"a".toList, presentation_score ((1:ℝ)/2) none⟩] :=
  ⟨by simp [candidate_ids, candidateList],
   by simp [candidate_ids, candidateList], rfl⟩

/-- C2, amended: the exclusion is positional, so the pool is guaranteed free
of the query id exactly under the positional assumption — when the index
returns the query article as its FIRST neighbor and the returned ids are
pairwise distinct. -/
theorem C2_self_exclusion_amended (qid : Int) (neighbors : List (Int × ℝ))
    (hhead : (neighbors.map Prod.fst).head? = some qid)
    (hnodup : (neighbors.map Prod.fst).Nodup) :
    qid ∉ candidate_ids neighbors := by
  cases neighbors with
  | nil => simp at hhead
  | cons hd tl =>
    simp only [List.map_cons, List.head?_cons, Option.some.injEq] at hhead
    simp only [List.map_cons, List.nodup_cons] at hnodup
    intro hmem
    exact hnodup.1 (hhead ▸ hmem)

/-- C2, witness for the amended theorem: self first, distinct ids. -/
theorem C2_self_exclusion_amended_witness :
    (([((1:Int),(0:ℝ)), ((2:Int),(1:ℝ))]).map Prod.fst).head? = some 1 ∧
    (([((1:Int),(0:ℝ)), ((2:Int),(1:ℝ))]).map Prod.fst).Nodup ∧
    (1:Int) ∉ candidate_ids [((1:Int),(0:ℝ)), ((2:Int),(1:ℝ))] :=
  ⟨by simp, by simp, C2_self_exclusion_amended 1 _ (by simp) (by simp)⟩

/-- C3: the ETL of `normalize.py` writes `lookup_title = title.lower()`
while the API reads with `title.replace(' ', '_').lower()`.  For the stored
article titled `"Albert Einstein"` (ETL key `"albert einstein"`), every
casing/separator variant of the title normalizes to `"albert_einstein"` and
resolution fails with not-found, although the article is in the store: the
write-time key and the read-time key disagree on any title with a space. -/
theorem C3_normalization_mismatch :
    get_related nullIndex albertStore "Albert Einstein".toList =
      ApiResponse.notFound "albert_einstein".toList ∧
    get_related nullIndex albertStore "albert_einstein".toList =
      ApiResponse.notFound "albert_einstein".toList ∧
    get_related nullIndex albertStore "ALBERT_EINSTEIN".toList =
      ApiResponse.notFound "albert_einstein".toList ∧
    lookup_key "Albert Einstein".toList ≠
      etl_lookup_title "Albert Einstein".toList :=
  ⟨by decide, by decide, by decide, by decide⟩

/-- C4: filter completeness.  Every entry of a successful response has a
title that `is_meta_page` classifies as non-meta: no title that (after
case-folding) starts with a configured meta prefix or contains the
disambiguation marker ever appears in a final result set. -/
theorem C4_filter_completeness (idx : VectorIndex) (store : List ArticleRecord)
    (title : List Char) (results : List RankedResult)
    (hok : get_related idx store title = ApiResponse.ok results) :
    ∀ r ∈ results, is_meta_page r.title = false := by
  intro r hr
  cases hfind : findByLookupKey store (lookup_key title) with
  | none => simp [get_related, hfind] at hok
  | some row =>
    cases hrec : idx.reconstruct row.article_id with
    | none => simp [get_related, hfind, hrec] at hok
    | some emb =>
      simp only [get_related, hfind, hrec, ApiResponse.ok.injEq] at hok
      subst hok
      exact mem_ranked_results_no_meta _ _ r (mem_rank_and_truncate r _ hr)

/-- C4, witness: a successful concrete request whose single result has the
non-meta title `"b"`. -/
theorem C4_filter_completeness_witness : is_meta_page "b".toList = false :=
  C4_filter_completeness wIndex wStore "a".toList
    [⟨"b".toList, presentation_score ((1:ℝ)/2) none⟩] rfl
    ⟨"b".toList, presentation_score ((1:ℝ)/2) none⟩ (List.mem_singleton.mpr rfl)

/-- C5: result-size bound.  The response list returned on success has length
`min(RESULTS_TO_RETURN, number of candidates surviving the metadata join and
the meta-page filter)`: fewer survivors are all returned, never padded, and
the truncation itself cannot fail. -/
theorem C5_result_size_bound (store : List ArticleRecord)
    (neighbors : List (Int × ℝ)) :
    (rank_and_truncate (ranked_results store neighbors)).length =
      min RESULTS_TO_RETURN (ranked_results store neighbors).length := by
  unfold rank_and_truncate
  rw [List.length_take, (pySortDesc_perm _).length_eq]

/-- C6: monotonicity of the blended score.  Holding the pageview value fixed,
a smaller distance never yields a smaller final score; holding the distance
fixed, a larger pageview count never yields a smaller final score. -/
theorem C6_score_monotonicity :
    (∀ d1 d2 pv, d1 ≤ d2 → final_score d2 pv ≤ final_score d1 pv) ∧
    (∀ d p1 p2, p1 ≤ p2 →
      final_score d (some p1) ≤ final_score d (some p2)) := by
  constructor
  · intro d1 d2 pv h
    unfold final_score score_semantic WEIGHT_SEMANTIC
    have hm : (1 - d2) * 0.70 ≤ (1 - d1) * 0.70 := by nlinarith
    linarith
  · intro d p1 p2 h
    unfold final_score WEIGHT_POPULARITY
    have hm := normalize_popularity_mono p1 p2 h
    nlinarith

/-- C6, witness at distances 0 and 1 and at pageview counts 1 and 2. -/
theorem C6_score_monotonicity_witness :
    final_score 1 none ≤ final_score 0 none ∧
    final_score 0 (some 1) ≤ final_score 0 (some 2) :=
  ⟨C6_score_monotonicity.1 0 1 none (by norm_num),
   C6_score_monotonicity.2 0 1 2 (by norm_num)⟩

/-- C7: the spec's worked examples.  Distance `0.1` with 5,000,000 pageviews
scores exactly 91; distance `0.0` with 0 pageviews has semantic component 1,
popularity component 0, blended score `0.70` and presentation score 70. -/
theorem C7_worked_examples :
    presentation_score 0.1 (some 5000000) = 91 ∧
    score_semantic 0 = 1 ∧
    normalize_popularity (some 0) = 0 ∧
    final_score 0 (some 0) = 0.70 ∧
    presentation_score 0 (some 0) = 70 := by
  have hlb := logb_5000001_lb
  have hub := logb_5000001_ub
  have hpop : normalize_popularity (some 5000000) =
      Real.logb 10 5000001 / 7 := by
    simp only [normalize_popularity]
    rw [if_neg (by norm_num)]
    have hc : ((5000000:Int):ℝ) + 1 = 5000001 := by norm_num
    rw [hc, min_eq_right (by linarith)]
  have hfs : final_score 0.1 (some 5000000) =
      0.9 * 0.70 + (Real.logb 10 5000001 / 7) * 0.30 := by
    rw [final_score, hpop, score_semantic, WEIGHT_SEMANTIC, WEIGHT_POPULARITY]
    norm_num
  have hx0 : (0:ℝ) ≤ final_score 0.1 (some 5000000) * 100 := by
    rw [hfs]; linarith
  have hps : presentation_score 0.1 (some 5000000) =
      ⌊final_score 0.1 (some 5000000) * 100⌋ := by
    rw [presentation_score, pyInt, if_neg (not_lt.mpr hx0)]
  have hpop0 : normalize_popularity (some 0) = 0 := by
    simp [normalize_popularity]
  have hfs0 : final_score 0 (some 0) = 0.70 := by
    rw [final_score, hpop0, score_semantic, WEIGHT_SEMANTIC, WEIGHT_POPULARITY]
    norm_num
  refine ⟨?_, by rw [score_semantic]; norm_num, hpop0, hfs0, ?_⟩
  · rw [hps, Int.floor_eq_iff]
    rw [hfs]
    push_cast
    constructor <;> linarith
  · rw [presentation_score, hfs0, pyInt,
      if_neg (by norm_num : ¬ (0.70:ℝ) * 100 < 0)]
    have h70 : (0.70:ℝ) * 100 = ((70:Int):ℝ) := by norm_num
    rw [h70, Int.floor_intCast]

/-- C8: unknown titles.  When no stored row carries the normalized key, the
request fails with the not-found response carrying exactly that key; the
concrete title `"Zzzznotreal Title Xyz"` normalizes to
`"zzzznotreal_title_xyz"`. -/
theorem C8_unknown_title (idx : VectorIndex) (store : List ArticleRecord)
    (title : List Char)
    (h : ∀ r ∈ store, r.lookup_title ≠ lookup_key title) :
    get_related idx store title = ApiResponse.notFound (lookup_key title) ∧
    lookup_key "Zzzznotreal Title Xyz".toList =
      "zzzznotreal_title_xyz".toList := by
  constructor
  · have hf : findByLookupKey store (lookup_key title) = none := by
      unfold findByLookupKey
      apply List.find?_eq_none.mpr
      intro r hr
      simpa using h r hr
    simp [get_related, hf]
  · decide

/-- C8, witness on the empty store with the spec's concrete unknown title. -/
theorem C8_unknown_title_witness :
    get_related nullIndex [] "Zzzznotreal Title Xyz".toList =
      ApiResponse.notFound (lookup_key "Zzzznotreal Title Xyz".toList) :=
  (C8_unknown_title nullIndex [] "Zzzznotreal Title Xyz".toList (by simp)).1

/-- C9: the read-time normalization is idempotent (it is total by
construction: `lookup_key` is a function defined on every string). -/
theorem C9_normalization_idempotent (t : List Char) :
    lookup_key (lookup_key t) = lookup_key t := by
  rw [lookup_key_eq_map, lookup_key_eq_map]
  induction t with
  | nil => rfl
  | cons c cs ih =>
    simp only [List.map_cons, List.cons.injEq, Function.comp]
    exact ⟨lookup_key_char_idem c, ih⟩

/-- C10: the ranker sorts by the truncated integer presentation score (the
only score the `RankedResult` entries carry), the sort is the stable
descending sort, and therefore entries whose integer scores coincide keep
the retriever's distance-ascending input order in the sorted list; the
response is its `RESULTS_TO_RETURN`-prefix, which preserves that order. -/
theorem C10_sort_key_and_stability (store : List ArticleRecord)
    (neighbors : List (Int × ℝ)) (s : Int) :
    rank_and_truncate (ranked_results store neighbors) =
      (pySortDesc (ranked_results store neighbors)).take RESULTS_TO_RETURN ∧
    (pySortDesc (ranked_results store neighbors)).filter
        (fun r => r.score == s) =
      (ranked_results store neighbors).filter (fun r => r.score == s) ∧
    (pySortDesc (ranked_results store neighbors)).Sorted
      (fun a b => b.score ≤ a.score) :=
  ⟨rfl, filter_pySortDesc _ s, sorted_pySortDesc _⟩
